import Mathlib

/-!
Verification of the scoring/aggregation pipeline of the mission-control
live-data generator.

The development is a shallow embedding of the two generator scripts.
JavaScript numbers are idealised as exact rationals (`ℚ`); integers that
JavaScript keeps exact (counts, scores, millisecond timestamps) are `ℕ`/`ℤ`.
`Math.round` is JavaScript's round-half-toward-positive-infinity, i.e.
`⌊x + 1/2⌋`.  Filesystem reads and subprocess calls are modelled by passing
their observed results (directory trees, command outputs, file texts) as
explicit inputs.
-/

/-- JavaScript `Math.round`: round half toward positive infinity. -/
def jsRound (q : ℚ) : ℤ := ⌊q + 1/2⌋

/-- JavaScript `x || 0` on an integer value: falsy (zero) becomes 0,
which on exact integers is the identity. -/
def jsOr0 (x : ℤ) : ℤ := if x = 0 then 0 else x

/-- JavaScript `s || d` on a string value: empty (falsy) becomes the default. -/
def jsOrString (s d : String) : String := if s = "" then d else s

/-- Spec-side clamp: `clamp(lo, hi, x)`; the code writes
`Math.max(lo, Math.min(hi, x))`. -/
def clamp (lo hi x : ℤ) : ℤ := max lo (min hi x)

/-- Source `iso(ms)`: the code renders a nonzero millisecond timestamp as an ISO-8601
string and zero as `null`.  ISO rendering is injective on the timestamp, so we
keep the millisecond value itself. -/
def iso (ms : ℕ) : Option ℕ := if ms ≠ 0 then some ms else none

theorem jsOr0_eq (x : ℤ) : jsOr0 x = x := by
  unfold jsOr0; split <;> simp_all

/-! ### Checklist parser (`countTodoItems`)

`md.match(/^- \[[ xX]\]/gm)` counts the positions where a line starts with
`- [ ]`, `- [x]` or `- [X]`.  With the `m` flag, `^` matches at the start of
the string and after every line terminator (`\n` or `\r`), so the match count
is the number of such segments that begin with the pattern. -/

structure TodoCounts where
  total : ℕ
  done : ℕ
  /-- JS field `open` (a Lean keyword): `Math.max(0, total - done)`. -/
  openCount : ℤ
deriving DecidableEq, Repr

/-- Split a character sequence at every line terminator (`\n` or `\r`): the
resulting segments begin exactly at the positions where a multiline `^` can
match. -/
def splitLines (cs : List Char) : List (List Char) :=
  cs.foldr
    (fun c acc =>
      if c = '\n' ∨ c = '\r' then [] :: acc
      else
        match acc with
        | [] => [[c]]
        | h :: t => (c :: h) :: t)
    [[]]

/-- The checkbox head `- [c]` of a line, when present: the regexes
`^- \[[ xX]\]` and `^- \[[xX]\]` differ only in the allowed class character
`c`. -/
def todoLineKind (l : List Char) : Option Char :=
  match l with
  | '-' :: ' ' :: '[' :: c :: ']' :: _ => some c
  | _ => none

/-- A line matching `^- \[[ xX]\]`. -/
def isTodoLine (l : List Char) : Bool :=
  match todoLineKind l with
  | some c => c = ' ' || c = 'x' || c = 'X'
  | none => false

/-- A line matching `^- \[[xX]\]`. -/
def isDoneLine (l : List Char) : Bool :=
  match todoLineKind l with
  | some c => c = 'x' || c = 'X'
  | none => false

/-- Source `countTodoItems(md)`: `total` counts the matches of the
global multiline pattern, `done` those whose class character is `x`/`X`, and
`open = Math.max(0, total - done)`. -/
def countTodoItems (md : String) : TodoCounts :=
  let lines := splitLines md.data
  let total := (lines.filter fun l => isTodoLine l).length
  let done := (lines.filter fun l => isDoneLine l).length
  ⟨total, done, max 0 ((total : ℤ) - (done : ℤ))⟩

theorem isDoneLine_isTodoLine (l : List Char) (h : isDoneLine l = true) :
    isTodoLine l = true := by
  unfold isDoneLine at h
  unfold isTodoLine
  cases hk : todoLineKind l with
  | none => rw [hk] at h; exact absurd h (by simp)
  | some c =>
    rw [hk] at h
    simp only at h ⊢
    rcases Bool.or_eq_true_iff.mp h with h' | h' <;> simp [h']

theorem countTodoItems_done_le_total (md : String) :
    (countTodoItems md).done ≤ (countTodoItems md).total := by
  unfold countTodoItems
  simp only
  induction splitLines md.data with
  | nil => simp
  | cons l ls ih =>
    simp only [List.filter_cons]
    by_cases hd : isDoneLine l = true
    · simp [hd, isDoneLine_isTodoLine l hd, Nat.succ_le_succ ih]
    · by_cases ht : isTodoLine l = true
      · simp only [hd, ht, if_true, if_false, List.length_cons]
        exact Nat.le_succ_of_le ih
      · simp [hd, ht, ih]

/-! ### Version-control activity probe (`getGit7DayActivity`) -/

/-- Result of `safeExec`: `ok` is whether the command exited zero, `out` the
captured (trimmed) stdout, or stdout+stderr on failure. -/
structure ExecResult where
  ok : Bool
  out : String
deriving DecidableEq, Repr

structure GitActivity where
  commits7d : ℕ
  trend : List ℕ
  contributors7d : ℕ
  confidence : String
deriving DecidableEq, Repr

/-- The per-bucket log command the probe runs for the window
`"{a} days ago"` .. `"{b} days ago"`. -/
def gitLogCmd (a b : ℕ) : String :=
  "git log --since=\"" ++ toString a ++ " days ago\" --until=\"" ++ toString b
    ++ " days ago\" --pretty=format:%H"

/-- The distinct-author query over the trailing week. -/
def authorsCmd : String := "git log --since=\"7 days ago\" --pretty=format:%an"

/-- JavaScript `s.split(/\r?\n/)`. -/
def jsSplitLines (s : String) : List String :=
  (s.replace "\r\n" "\n").splitOn "\n"

/-- Source `out.ok && out.out ? out.out.split(/\r?\n/).filter(Boolean).length : 0`. -/
def bucketCount (r : ExecResult) : ℕ :=
  if r.ok ∧ r.out ≠ "" then ((jsSplitLines r.out).filter fun l => l ≠ "").length
  else 0

/-- Source `getGit7DayActivity(dir)`.  `hasGitDir` is `fs.existsSync(dir/.git)`;
`exec` is the ambient `safeExec`, observed as a map from command string to
result.  The loop runs `i = 6, 5, …, 0`, pushing bucket `i` scoped
`"{i+1} days ago"`..`"{i} days ago"`, i.e. oldest first. -/
def getGit7DayActivity (hasGitDir : Bool) (exec : String → ExecResult) :
    GitActivity :=
  if !hasGitDir then ⟨0, [0, 0, 0, 0, 0, 0, 0], 0, "low"⟩
  else
    let counts := (List.range 7).map fun k =>
      let i := 6 - k
      bucketCount (exec (gitLogCmd (i + 1) i))
    let auth := exec authorsCmd
    let contributors7d :=
      if auth.ok ∧ auth.out ≠ "" then
        ((jsSplitLines auth.out).filter fun l => l ≠ "").dedup.length
      else 0
    ⟨counts.sum, counts, contributors7d, "high"⟩

/-! ### Freshness classification and scoring engine -/

inductive Freshness where
  | hot | warm | cold | unknown
deriving DecidableEq, Repr

/-- Source `classifyFreshness(hours)`: `unknown` when no timestamp was observed,
else `hot` under 6 h, `warm` under 24 h, `cold` otherwise. -/
def classifyFreshness : Option ℚ → Freshness
  | none => .unknown
  | some h => if h < 6 then .hot else if h < 24 then .warm else .cold

/-- The freshness bucket rendered as the JSON `health` string. -/
def healthString : Freshness → String
  | .hot => "hot"
  | .warm => "warm"
  | .cold => "cold"
  | .unknown => "unknown"

/-- Spec-side floor: 70/52/34 for hot/warm/cold (the code's else-branch also
gives 34 to `unknown`). -/
def freshnessFloor : Freshness → ℤ
  | .hot => 70
  | .warm => 52
  | _ => 34

/-- Spec-side bonus: 15/7/2 for hot/warm/otherwise. -/
def freshnessBonus : Freshness → ℤ
  | .hot => 15
  | .warm => 7
  | _ => 2

/-- Source `completionFromTodos = todos.total ? Math.round((todos.done / todos.total) * 100) : null`. -/
def completionFromTodos (t : TodoCounts) : Option ℤ :=
  if t.total ≠ 0 then some (jsRound ((t.done : ℚ) / (t.total : ℚ) * 100))
  else none

/-- The `progress` expression of the scoring engine:
`Math.max(completionFromTodos ?? 0, freshness ternary chain, Math.min(85, commits7d * 8))`. -/
def progressOf (completion : Option ℤ) (freshness : Freshness)
    (commits7d : ℕ) : ℤ :=
  max (completion.getD 0)
    (max
      (if freshness = .hot then 70 else if freshness = .warm then 52 else 34)
      (min 85 ((commits7d : ℤ) * 8)))

/-- The `roiScore` expression of the scoring engine:
`Math.max(10, Math.min(99, Math.round(progress * 0.55 + commits7d * 3 + bonus)))`. -/
def roiScoreOf (progress : ℤ) (commits7d : ℕ) (freshness : Freshness) : ℤ :=
  max 10 (min 99 (jsRound ((progress : ℚ) * (0.55 : ℚ) + (commits7d : ℚ) * 3 +
    ((if freshness = .hot then 15 else if freshness = .warm then 7 else 2) : ℚ))))

/-! ### Filesystem scanner (`latestMtimeRecursive`)

The walk keeps an explicit worklist of directories (`stack.pop()` takes the
most recently pushed entry list), skips `.git`, `node_modules` and `.next`,
takes the running maximum of modification times, counts visited entries and
returns early with `capped = true` as soon as the count reaches `maxFiles`.
The model assumes every `readdirSync`/`statSync` in the tree succeeds (the
claims quantify over readable trees; a failing read only shrinks the visited
set). -/

inductive FSEntry where
  | file (name : String) (mtimeMs : ℕ)
  | dir (name : String) (mtimeMs : ℕ) (entries : List FSEntry)
deriving Repr

def entrySize (e : FSEntry) : ℕ :=
  match e with
  | .file _ _ => 1
  | .dir _ _ es => 1 + (es.attach.map fun x => entrySize x.1).sum
decreasing_by
  have h1 := List.sizeOf_lt_of_mem x.2
  simp only [FSEntry.dir.sizeOf_spec]
  omega

def entriesSize (l : List FSEntry) : ℕ := (l.map entrySize).sum

theorem entrySize_dir (n : String) (m : ℕ) (es : List FSEntry) :
    entrySize (.dir n m es) = 1 + entriesSize es := by
  rw [entrySize.eq_def]
  simp only [entriesSize, List.attach, List.attachWith, List.map_pmap, List.pmap_eq_map]

theorem entrySize_pos (e : FSEntry) : 1 ≤ entrySize e := by
  cases e with
  | file n m => rw [entrySize.eq_1]
  | dir n m es => rw [entrySize_dir]; omega

def stackSize (st : List (List FSEntry)) : ℕ := (st.map entriesSize).sum

structure ScanResult where
  latest : ℕ
  count : ℕ
  capped : Bool
deriving DecidableEq, Repr

def skipName (n : String) : Bool :=
  n == ".git" || n == "node_modules" || n == ".next"

def walk : List FSEntry → List (List FSEntry) → ℕ → ℕ → ℕ → ScanResult
  | [], [], latest, count, _ => ⟨latest, count, false⟩
  | [], es :: stack, latest, count, mf => walk es stack latest count mf
  | .file n m :: rest, stack, latest, count, mf =>
    if skipName n then walk rest stack latest count mf
    else if mf ≤ count + 1 then ⟨max latest m, count + 1, true⟩
    else walk rest stack (max latest m) (count + 1) mf
  | .dir n m es :: rest, stack, latest, count, mf =>
    if skipName n then walk rest stack latest count mf
    else if mf ≤ count + 1 then ⟨max latest m, count + 1, true⟩
    else walk rest (es :: stack) (max latest m) (count + 1) mf
termination_by cur stack _ _ _ => (entriesSize cur + stackSize stack, stack.length)
decreasing_by
  all_goals
    simp only [entriesSize, stackSize, List.map_cons, List.sum_cons, List.map_nil,
      List.sum_nil, List.length_cons, entrySize.eq_1, entrySize_dir, Nat.zero_add]
  · exact Prod.Lex.right _ (by omega)
  · exact Prod.Lex.left _ _ (by omega)
  · exact Prod.Lex.left _ _ (by omega)
  · exact Prod.Lex.left _ _ (by omega)
  · exact Prod.Lex.left _ _ (by omega)


def visitEntry (e : FSEntry) : ℕ :=
  match e with
  | .file n _ => if skipName n then 0 else 1
  | .dir n _ es => if skipName n then 0 else 1 + (es.attach.map fun x => visitEntry x.1).sum
decreasing_by
  have h1 := List.sizeOf_lt_of_mem x.2
  simp only [FSEntry.dir.sizeOf_spec]
  omega

def visitList (l : List FSEntry) : ℕ := (l.map visitEntry).sum

def visitStack (st : List (List FSEntry)) : ℕ := (st.map visitList).sum

def mtimeEntry (e : FSEntry) : ℕ :=
  match e with
  | .file n m => if skipName n then 0 else m
  | .dir n m es =>
    if skipName n then 0
    else max m ((es.attach.map fun x => mtimeEntry x.1).foldr max 0)
decreasing_by
  have h1 := List.sizeOf_lt_of_mem x.2
  simp only [FSEntry.dir.sizeOf_spec]
  omega

def mtimeList (l : List FSEntry) : ℕ := (l.map mtimeEntry).foldr max 0

def mtimeStack (st : List (List FSEntry)) : ℕ := (st.map mtimeList).foldr max 0

theorem visitEntry_file (n : String) (m : ℕ) :
    visitEntry (.file n m) = if skipName n then 0 else 1 := by
  rw [visitEntry.eq_def]

theorem visitEntry_dir (n : String) (m : ℕ) (es : List FSEntry) :
    visitEntry (.dir n m es) = if skipName n then 0 else 1 + visitList es := by
  rw [visitEntry.eq_def]
  simp only [visitList, List.attach, List.attachWith, List.map_pmap, List.pmap_eq_map]

theorem mtimeEntry_file (n : String) (m : ℕ) :
    mtimeEntry (.file n m) = if skipName n then 0 else m := by
  rw [mtimeEntry.eq_def]

theorem mtimeEntry_dir (n : String) (m : ℕ) (es : List FSEntry) :
    mtimeEntry (.dir n m es) = if skipName n then 0 else max m (mtimeList es) := by
  rw [mtimeEntry.eq_def]
  simp only [mtimeList, List.attach, List.attachWith, List.map_pmap, List.pmap_eq_map]

theorem visitList_nil : visitList [] = 0 := rfl

theorem visitList_cons (e : FSEntry) (l : List FSEntry) :
    visitList (e :: l) = visitEntry e + visitList l := by
  simp [visitList]

theorem mtimeList_nil : mtimeList [] = 0 := rfl

theorem mtimeList_cons (e : FSEntry) (l : List FSEntry) :
    mtimeList (e :: l) = max (mtimeEntry e) (mtimeList l) := by
  simp [mtimeList]

theorem visitStack_nil : visitStack [] = 0 := rfl

theorem visitStack_cons (es : List FSEntry) (st : List (List FSEntry)) :
    visitStack (es :: st) = visitList es + visitStack st := by
  simp [visitStack]

theorem mtimeStack_nil : mtimeStack [] = 0 := rfl

theorem mtimeStack_cons (es : List FSEntry) (st : List (List FSEntry)) :
    mtimeStack (es :: st) = max (mtimeList es) (mtimeStack st) := by
  simp [mtimeStack]

theorem walk_nocap (cur : List FSEntry) (stack : List (List FSEntry))
    (latest count mf : ℕ)
    (h : count + (visitList cur + visitStack stack) < mf) :
    walk cur stack latest count mf =
      ⟨max latest (max (mtimeList cur) (mtimeStack stack)),
       count + (visitList cur + visitStack stack), false⟩ := by
  induction cur, stack, latest, count, mf using walk.induct with
  | case1 latest count mf =>
    rw [walk]
    simp only [visitList_nil, visitStack_nil, mtimeList_nil, mtimeStack_nil]
    congr 1 <;> omega
  | case2 es stack latest count mf ih =>
    rw [walk]
    rw [visitList_nil, visitStack_cons] at h
    rw [ih (by omega)]
    simp only [visitList_nil, visitStack_cons, mtimeList_nil, mtimeStack_cons]
    congr 1 <;> omega
  | case3 n m rest stack latest count mf hskip ih =>
    rw [walk, if_pos hskip]
    rw [visitList_cons, visitEntry_file, if_pos hskip] at h
    rw [ih (by omega)]
    simp only [visitList_cons, visitEntry_file, mtimeList_cons, mtimeEntry_file,
      if_pos hskip]
    congr 1 <;> omega
  | case4 n m rest stack latest count mf hskip hcap =>
    rw [visitList_cons, visitEntry_file, if_neg hskip] at h
    omega
  | case5 n m rest stack latest count mf hskip hcap ih =>
    rw [walk, if_neg hskip, if_neg hcap]
    rw [visitList_cons, visitEntry_file, if_neg hskip] at h
    rw [ih (by omega)]
    simp only [visitList_cons, visitEntry_file, mtimeList_cons, mtimeEntry_file,
      if_neg hskip]
    congr 1 <;> omega
  | case6 n m es rest stack latest count mf hskip ih =>
    rw [walk, if_pos hskip]
    rw [visitList_cons, visitEntry_dir, if_pos hskip] at h
    rw [ih (by omega)]
    simp only [visitList_cons, visitEntry_dir, mtimeList_cons, mtimeEntry_dir,
      if_pos hskip]
    congr 1 <;> omega
  | case7 n m es rest stack latest count mf hskip hcap =>
    rw [visitList_cons, visitEntry_dir, if_neg hskip] at h
    omega
  | case8 n m es rest stack latest count mf hskip hcap ih =>
    rw [walk, if_neg hskip, if_neg hcap]
    rw [visitList_cons, visitEntry_dir, if_neg hskip] at h
    rw [visitStack_cons] at ih
    rw [ih (by omega)]
    simp only [visitList_cons, visitEntry_dir, mtimeList_cons, mtimeEntry_dir,
      if_neg hskip, mtimeStack_cons, visitStack_cons]
    congr 1 <;> omega

theorem walk_cap (cur : List FSEntry) (stack : List (List FSEntry))
    (latest count mf : ℕ)
    (h0 : count < mf)
    (h : mf ≤ count + (visitList cur + visitStack stack)) :
    (walk cur stack latest count mf).capped = true ∧
      (walk cur stack latest count mf).count = mf := by
  induction cur, stack, latest, count, mf using walk.induct with
  | case1 latest count mf =>
    rw [visitList_nil, visitStack_nil] at h
    omega
  | case2 es stack latest count mf ih =>
    rw [walk]
    rw [visitList_nil, visitStack_cons] at h
    exact ih h0 (by omega)
  | case3 n m rest stack latest count mf hskip ih =>
    rw [walk, if_pos hskip]
    rw [visitList_cons, visitEntry_file, if_pos hskip] at h
    exact ih h0 (by omega)
  | case4 n m rest stack latest count mf hskip hcap =>
    rw [walk, if_neg hskip, if_pos hcap]
    exact ⟨rfl, show count + 1 = mf by omega⟩
  | case5 n m rest stack latest count mf hskip hcap ih =>
    rw [walk, if_neg hskip, if_neg hcap]
    rw [visitList_cons, visitEntry_file, if_neg hskip] at h
    exact ih (by omega) (by omega)
  | case6 n m es rest stack latest count mf hskip ih =>
    rw [walk, if_pos hskip]
    rw [visitList_cons, visitEntry_dir, if_pos hskip] at h
    exact ih h0 (by omega)
  | case7 n m es rest stack latest count mf hskip hcap =>
    rw [walk, if_neg hskip, if_pos hcap]
    exact ⟨rfl, show count + 1 = mf by omega⟩
  | case8 n m es rest stack latest count mf hskip hcap ih =>
    rw [walk, if_neg hskip, if_neg hcap]
    rw [visitList_cons, visitEntry_dir, if_neg hskip] at h
    rw [visitStack_cons] at ih
    exact ih (by omega) (by omega)

/-- Source `latestMtimeRecursive(dir, maxFiles = 7000)`: the walk starts from the
root directory's entry listing with an empty worklist, `latest = 0` and
`count = 0` (the root itself is popped first and read, so only its entries
are ever counted). -/
def latestMtimeRecursive (rootEntries : List FSEntry) (maxFiles : ℕ := 7000) :
    ScanResult :=
  walk rootEntries [] 0 0 maxFiles

theorem latestMtimeRecursive_nocap (root : List FSEntry) (mf : ℕ)
    (h : visitList root < mf) :
    latestMtimeRecursive root mf = ⟨mtimeList root, visitList root, false⟩ := by
  rw [latestMtimeRecursive, walk_nocap root [] 0 0 mf (by
    rw [visitStack_nil]; omega)]
  rw [visitStack_nil, mtimeStack_nil]
  congr 1 <;> omega

theorem latestMtimeRecursive_cap (root : List FSEntry) (mf : ℕ)
    (h0 : 0 < mf) (h : mf ≤ visitList root) :
    (latestMtimeRecursive root mf).capped = true ∧
      (latestMtimeRecursive root mf).count = mf := by
  rw [latestMtimeRecursive]
  exact walk_cap root [] 0 0 mf h0 (by rw [visitStack_nil]; omega)

theorem visitList_replicate_file (k : ℕ) :
    visitList (List.replicate k (FSEntry.file "f" 1)) = k := by
  induction k with
  | zero => rfl
  | succ k ih =>
    rw [List.replicate_succ, visitList_cons, visitEntry_file, ih]
    have hs : skipName "f" = false := by decide
    simp [hs]
    omega

/-! ### Project records and snapshot assembly

The per-project JSON object is modelled as a record; string timestamps keep
their underlying millisecond value (`iso`), so record equality coincides with
byte equality of the serialized object. -/

structure FileSignals where
  filesScanned : ℕ
  scanCapped : Bool
deriving DecidableEq, Repr

structure TimelineItem where
  label : String
  state : String
  due : String
deriving DecidableEq, Repr

structure StatItem where
  label : String
  value : String
deriving DecidableEq, Repr

structure Project where
  id : String
  name : String
  path : String
  latestUpdate : Option ℕ
  /-- Present on scanned projects only; the fixed Polymarket object has no
  `fileSignals` key. -/
  fileSignals : Option FileSignals
  freshnessHours : Option ℚ
  health : String
  progress : ℤ
  roiScore : ℤ
  confidence : String
  confidenceReason : String
  trend7d : List ℕ
  timeline : List TimelineItem
  stats : List StatItem
  actions : List String
deriving DecidableEq, Repr

/-- Source `name.replace(/[_-]/g, ' ')`. -/
def dashToSpace (s : String) : String :=
  s.map fun c => if c = '_' ∨ c = '-' then ' ' else c

/-- JavaScript `\w`. -/
def isWordChar (c : Char) : Bool := c.isAlphanum || c = '_'

/-- Source `.replace(/\b\w/g, c => c.toUpperCase())`: uppercase every word character
that is not preceded by a word character. -/
def capWordStarts (s : String) : String :=
  ((s.toList.foldl
      (fun (acc : List Char × Bool) c =>
        (acc.1 ++ [if acc.2 then c else c.toUpper], isWordChar c))
      ([], false)).1).asString

def displayName (s : String) : String := capWordStarts (dashToSpace s)

/-- Source `freshnessHours = snap.latest ? (Date.now() - snap.latest) / 36e5 : null`. -/
def rawHours (latest : ℕ) (now : ℚ) : Option ℚ :=
  if latest ≠ 0 then some ((now - (latest : ℚ)) / 3600000) else none

/-- The displayed hours: `Math.round(freshnessHours * 10) / 10`, or null. -/
def displayHours (h : Option ℚ) : Option ℚ :=
  h.map fun x => ((jsRound (x * 10) : ℚ)) / 10

/-- The raw observations the generator makes about one scanned project
directory: its entry tree, whether `.git` exists, the `safeExec` behaviour in
it, and the contents of the markdown checklist files `countTodosInProject`
reads (joined with a newline). -/
structure ProjectFS where
  name : String
  dir : String
  tree : List FSEntry
  hasGitDir : Bool
  exec : String → ExecResult
  todoFiles : List String

/-- The per-project object built in the `projects = projectDirs.map(...)`
body, lines 111–166 of the generator. -/
def mkProject (now : ℚ) (p : ProjectFS) : Project :=
  let snap := latestMtimeRecursive p.tree 7000
  let fh := rawHours snap.latest now
  let freshness := classifyFreshness fh
  let git := getGit7DayActivity p.hasGitDir p.exec
  let todos := countTodoItems (String.intercalate "\n" p.todoFiles)
  let completion := completionFromTodos todos
  let progress := progressOf completion freshness git.commits7d
  let roiScore := roiScoreOf progress git.commits7d freshness
  let confidence :=
    if git.confidence = "high" then (if todos.total ≠ 0 then "high" else "medium")
    else "low"
  { id := p.name
    name := displayName p.name
    path := p.dir
    latestUpdate := iso snap.latest
    fileSignals := some ⟨snap.count, snap.capped⟩
    freshnessHours := displayHours fh
    health := healthString freshness
    progress := progress
    roiScore := roiScore
    confidence := confidence
    confidenceReason :=
      if confidence = "high" then
        "Built from git activity + explicit checklist evidence."
      else if confidence = "medium" then
        "Built from git activity + filesystem recency proxies."
      else "Filesystem recency heuristic only; validate manually."
    trend7d := git.trend
    timeline := [
      ⟨"Scope lock", "done", "In progress week"⟩,
      ⟨"Build sprint", if progress > 45 then "active" else "queued", "Next 24-48h"⟩,
      ⟨"QA + operator review", if progress > 72 then "active" else "queued", "Next 48h"⟩,
      ⟨"Deploy / handoff", "queued", "After QA gate"⟩]
    stats := [
      ⟨"ROI Priority", toString roiScore ++ "/100"⟩,
      ⟨"7d Commits", toString git.commits7d⟩,
      ⟨"Contributors (7d)", toString git.contributors7d⟩,
      ⟨"TODO Open", toString todos.openCount⟩]
    actions := [
      "Close 1 highest ROI blocker first",
      "Ship a visible operator-facing quality improvement",
      "Attach freshness + confidence labels to new metrics"] }

/-- The fixed Polymarket Bot object, `projects.unshift({...})`,
lines 168–197.  `statusMtime` is `STATUS.md`'s mtime, or `none` when the file
does not exist. -/
def mkPolymarketProject (polyPath : String) (counts : TodoCounts)
    (statusMtime : Option ℕ) (now : ℚ) : Project :=
  { id := "polymarket"
    name := "Polymarket Bot"
    path := polyPath
    latestUpdate := iso (statusMtime.getD 0)
    fileSignals := none
    freshnessHours := statusMtime.map fun m =>
      ((jsRound ((now - (m : ℚ)) / 3600000 * 10) : ℚ)) / 10
    health := if counts.openCount > 0 then "active" else "stable"
    progress :=
      if counts.total ≠ 0 then jsRound ((counts.done : ℚ) / (counts.total : ℚ) * 100)
      else 0
    roiScore := if counts.openCount > 0 then 78 else 64
    confidence := "high"
    confidenceReason :=
      "Derived from explicit TODO.md checklist state + STATUS.md timestamp."
    trend7d := [2, 3, 1, 4, 2, 2, 3]
    timeline := [
      ⟨"Market scan", "done", "Complete"⟩,
      ⟨"Strategy tune", "active", "This week"⟩,
      ⟨"Risk guardrail hardening", "queued", "Next gate"⟩,
      ⟨"Execution window", "queued", "After guardrails"⟩]
    stats := [
      ⟨"TODO Open", toString counts.openCount⟩,
      ⟨"TODO Done", toString counts.done⟩,
      ⟨"Checklist Total", toString counts.total⟩,
      ⟨"ROI Priority", toString (if counts.openCount > 0 then (78 : ℤ) else 64) ++ "/100"⟩]
    actions := [
      "Close highest-risk open TODO first",
      "Update STATUS.md with current risk envelope",
      "Re-run dry-run checks before activation"] }

/-- Everything the generator observes from the environment in one run, other
than the clock. -/
structure Workspace where
  scanned : List ProjectFS
  polyPath : String
  polyTodoText : String
  polyStatusMtime : Option ℕ

/-- The `projects` array of the emitted snapshot: the fixed Polymarket object
unshifted in front of the mapped scanned projects, in insertion order. -/
def snapshotProjects (w : Workspace) (now : ℚ) : List Project :=
  mkPolymarketProject w.polyPath (countTodoItems w.polyTodoText)
      w.polyStatusMtime now
    :: w.scanned.map (mkProject now)

/-- The comparator `(a, b) => (b.roiScore || 0) - (a.roiScore || 0)`: `a` may
stay before `b` iff the comparator is ≤ 0 there. -/
def roiGe (a b : Project) : Prop := jsOr0 b.roiScore ≤ jsOr0 a.roiScore

instance : DecidableRel roiGe := fun a b => by unfold roiGe; infer_instance

instance : IsTotal Project roiGe := ⟨fun _ _ => le_total _ _⟩

instance : IsTrans Project roiGe := ⟨fun _ _ _ hab hbc => le_trans hbc hab⟩

/-- Source `ranked = [...projects].sort((a, b) => (b.roiScore || 0) - (a.roiScore || 0))`:
a stable sort of a copy of the array, modelled by stable insertion sort. -/
def rankedProjects (w : Workspace) (now : ℚ) : List Project :=
  List.insertionSort roiGe (snapshotProjects w now)

/-- Source `top = ranked.slice(0, 3)`. -/
def topProjects (w : Workspace) (now : ℚ) : List Project :=
  (rankedProjects w now).take 3

structure PriorityModule where
  rank : ℕ
  id : String
  name : String
  roiScore : ℤ
  progress : ℤ
  confidence : String
  latestUpdate : Option ℕ
  note : String
deriving DecidableEq, Repr

/-- One entry of `priorityModules`: `top.map((p, idx) => ({rank: idx + 1, ...}))`. -/
def mkPriorityModule (ip : ℕ × Project) : PriorityModule :=
  ⟨ip.1 + 1, ip.2.id, ip.2.name, ip.2.roiScore, ip.2.progress, ip.2.confidence,
   ip.2.latestUpdate, jsOrString (ip.2.actions.headD "") "Review next gate"⟩

/-- The `priorityModules` array of the snapshot. -/
def priorityModules (w : Workspace) (now : ℚ) : List PriorityModule :=
  (topProjects w now).enum.map mkPriorityModule

/-! ### Shared bound lemmas -/

theorem completionFromTodos_getD_le_100 (t : TodoCounts) (h : t.done ≤ t.total) :
    (completionFromTodos t).getD 0 ≤ 100 := by
  unfold completionFromTodos
  split
  · rename_i ht
    simp only [Option.getD_some]
    unfold jsRound
    have htq : (0 : ℚ) < (t.total : ℚ) := by
      exact_mod_cast Nat.pos_of_ne_zero ht
    have h1 : (t.done : ℚ) / (t.total : ℚ) ≤ 1 :=
      (div_le_one htq).mpr (by exact_mod_cast h)
    have h2 : (t.done : ℚ) / (t.total : ℚ) * 100 ≤ 100 := by nlinarith
    calc ⌊(t.done : ℚ) / (t.total : ℚ) * 100 + 1/2⌋
        ≤ ⌊(100 : ℚ) + 1/2⌋ := Int.floor_le_floor (by linarith)
      _ = 100 := by norm_num [Int.floor_eq_iff]
  · simp

/-! ### Claim theorems -/

/-- C1: for every progress value, commit count and freshness bucket, the ROI
score equals `clamp(10, 99, round(progress*0.55 + commits7d*3 + freshnessBonus))`
with bonus 15 for hot, 7 for warm and 2 otherwise, and therefore satisfies
`10 ≤ roiScore ≤ 99` for all inputs, including arbitrarily large commit
counts. -/
theorem roiScore_clamp_formula_and_bounds (p : ℤ) (c : ℕ) (f : Freshness) :
    roiScoreOf p c f
        = clamp 10 99
            (jsRound ((p : ℚ) * (0.55 : ℚ) + (c : ℚ) * 3 + (freshnessBonus f : ℚ)))
      ∧ 10 ≤ roiScoreOf p c f ∧ roiScoreOf p c f ≤ 99 := by
  refine ⟨?_, ?_, ?_⟩
  · cases f <;> simp [roiScoreOf, clamp, freshnessBonus]
  · exact le_max_left _ _
  · exact max_le (by norm_num) (min_le_left _ _)

/-- C2: for known freshness and checklist counts with `done ≤ total`, the
progress equals
`max(completionFromTodos or 0, freshnessFloor(freshness), min(85, commits7d*8))`
with floor 70/52/34 for hot/warm/cold, and satisfies `34 ≤ progress ≤ 100`. -/
theorem progress_formula_and_bounds (t : TodoCounts) (f : Freshness) (c : ℕ)
    (hdt : t.done ≤ t.total) (hf : f ≠ Freshness.unknown) :
    progressOf (completionFromTodos t) f c
        = max ((completionFromTodos t).getD 0)
            (max (freshnessFloor f) (min 85 ((c : ℤ) * 8)))
      ∧ 34 ≤ progressOf (completionFromTodos t) f c
      ∧ progressOf (completionFromTodos t) f c ≤ 100 := by
  have hA := completionFromTodos_getD_le_100 t hdt
  have hC : min 85 ((c : ℤ) * 8) ≤ 85 := min_le_left _ _
  refine ⟨?_, ?_, ?_⟩
  · cases f <;> simp [progressOf, freshnessFloor]
  · cases f <;> simp [progressOf] <;> omega
  · cases f <;> simp [progressOf] <;> omega

/-- C2 witness: a concrete checklist state (3 items, 2 done) with hot
freshness and no commits has progress 70, inside the claimed bounds. -/
theorem progress_formula_and_bounds_witness :
    34 ≤ progressOf (completionFromTodos ⟨3, 2, 1⟩) Freshness.hot 0
      ∧ progressOf (completionFromTodos ⟨3, 2, 1⟩) Freshness.hot 0 ≤ 100 :=
  (progress_formula_and_bounds ⟨3, 2, 1⟩ Freshness.hot 0 (by decide)
    (by decide)).2

/-- C6: the checklist parser always returns `done ≤ total`, non-negative
counts with `open = total - done`, and the empty string yields all-zero
counts. -/
theorem countTodoItems_spec (md : String) :
    (countTodoItems md).done ≤ (countTodoItems md).total
  ∧ (countTodoItems md).openCount
      = ((countTodoItems md).total : ℤ) - ((countTodoItems md).done : ℤ)
  ∧ 0 ≤ (countTodoItems md).openCount
  ∧ countTodoItems "" = ⟨0, 0, 0⟩ := by
  have h := countTodoItems_done_le_total md
  have h' : ((countTodoItems md).done : ℤ) ≤ ((countTodoItems md).total : ℤ) := by
    exact_mod_cast h
  refine ⟨h, ?_, ?_, by decide⟩
  · show max 0 (((countTodoItems md).total : ℤ) - ((countTodoItems md).done : ℤ))
        = ((countTodoItems md).total : ℤ) - ((countTodoItems md).done : ℤ)
    omega
  · show (0 : ℤ) ≤ max 0 (((countTodoItems md).total : ℤ) - ((countTodoItems md).done : ℤ))
    omega

/-- C7: with a repository marker present, the probe queries the 7 day-buckets
oldest first (`"{i+1} days ago"`..`"{i} days ago"`), a failed bucket command
contributes 0 without aborting, `commits7d` is the sum of the trend, and the
returned confidence is `high`. -/
theorem gitActivity_buckets (exec : String → ExecResult) :
    (getGit7DayActivity true exec).trend =
        [bucketCount (exec (gitLogCmd 7 6)), bucketCount (exec (gitLogCmd 6 5)),
         bucketCount (exec (gitLogCmd 5 4)), bucketCount (exec (gitLogCmd 4 3)),
         bucketCount (exec (gitLogCmd 3 2)), bucketCount (exec (gitLogCmd 2 1)),
         bucketCount (exec (gitLogCmd 1 0))]
      ∧ (getGit7DayActivity true exec).commits7d
          = ((getGit7DayActivity true exec).trend).sum
      ∧ (getGit7DayActivity true exec).confidence = "high"
      ∧ (∀ k, k < 7 → (exec (gitLogCmd (7 - k) (6 - k))).ok = false →
          (getGit7DayActivity true exec).trend.getD k 0 = 0) := by
  have hr : List.range 7 = [0, 1, 2, 3, 4, 5, 6] := rfl
  have htrend : (getGit7DayActivity true exec).trend =
      [bucketCount (exec (gitLogCmd 7 6)), bucketCount (exec (gitLogCmd 6 5)),
       bucketCount (exec (gitLogCmd 5 4)), bucketCount (exec (gitLogCmd 4 3)),
       bucketCount (exec (gitLogCmd 3 2)), bucketCount (exec (gitLogCmd 2 1)),
       bucketCount (exec (gitLogCmd 1 0))] := by
    simp [getGit7DayActivity, hr]
  refine ⟨htrend, rfl, rfl, ?_⟩
  intro k hk hfail
  rw [htrend]
  interval_cases k <;> simp_all [bucketCount]

/-- C7 witness: an environment where every command fails yields a zero first
bucket. -/
theorem gitActivity_buckets_witness :
    (getGit7DayActivity true fun _ => ⟨false, ""⟩).trend.getD 0 0 = 0 :=
  (gitActivity_buckets fun _ => ⟨false, ""⟩).2.2.2 0 (by decide) rfl

/-- C8: with no repository marker, the probe returns the zero-activity
result with confidence `low`; the result is the same constant for every
command environment, i.e. no command is consulted. -/
theorem gitActivity_no_repo (exec : String → ExecResult) :
    getGit7DayActivity false exec = ⟨0, [0, 0, 0, 0, 0, 0, 0], 0, "low"⟩ := rfl

/-- C9: an `unknown` freshness bucket is scored exactly like `cold` (progress
floor 34, ROI bonus 2), so for checklist counts produced by the parser the
bound `34 ≤ progress ≤ 100` holds for every freshness bucket, known or not. -/
theorem unknown_freshness_scoring (md : String) (f : Freshness) (k : ℕ)
    (x : Option ℤ) (p : ℤ) :
    progressOf x Freshness.unknown k = progressOf x Freshness.cold k
  ∧ roiScoreOf p k Freshness.unknown = roiScoreOf p k Freshness.cold
  ∧ progressOf x Freshness.unknown k
      = max (x.getD 0) (max 34 (min 85 ((k : ℤ) * 8)))
  ∧ roiScoreOf p k Freshness.unknown
      = max 10 (min 99 (jsRound ((p : ℚ) * (0.55 : ℚ) + (k : ℚ) * 3 + 2)))
  ∧ 34 ≤ progressOf (completionFromTodos (countTodoItems md)) f k
  ∧ progressOf (completionFromTodos (countTodoItems md)) f k ≤ 100 := by
  have hA := completionFromTodos_getD_le_100 (countTodoItems md)
    (countTodoItems_done_le_total md)
  have hC : min 85 ((k : ℤ) * 8) ≤ 85 := min_le_left _ _
  refine ⟨by simp [progressOf], by simp [roiScoreOf], by simp [progressOf],
    by simp [roiScoreOf], ?_, ?_⟩
  · cases f <;> simp [progressOf] <;> omega
  · cases f <;> simp [progressOf] <;> omega

/-- C10: the fixed Polymarket Bot project is scored by its own literals:
confidence is the constant `high`, its ROI score is 78 when there are open
checklist items and 64 otherwise (always within 10–99), and with an empty
checklist its progress is 0, not null. -/
theorem polymarket_fixed_scoring (pp : String) (c : TodoCounts) (m : Option ℕ)
    (now : ℚ) :
    (mkPolymarketProject pp c m now).confidence = "high"
  ∧ (mkPolymarketProject pp c m now).roiScore
      = (if 0 < c.openCount then 78 else 64)
  ∧ 10 ≤ (mkPolymarketProject pp c m now).roiScore
  ∧ (mkPolymarketProject pp c m now).roiScore ≤ 99
  ∧ (c.total = 0 → (mkPolymarketProject pp c m now).progress = 0) := by
  refine ⟨rfl, rfl, ?_, ?_, ?_⟩
  · show (10 : ℤ) ≤ if 0 < c.openCount then 78 else 64
    split <;> norm_num
  · show (if 0 < c.openCount then (78 : ℤ) else 64) ≤ 99
    split <;> norm_num
  · intro h
    simp [mkPolymarketProject, h]

/-- C10 witness: with an all-zero checklist the fixed project reports
progress 0 and confidence `high`. -/
theorem polymarket_fixed_scoring_witness :
    (mkPolymarketProject "w" ⟨0, 0, 0⟩ none 0).progress = 0
      ∧ (mkPolymarketProject "w" ⟨0, 0, 0⟩ none 0).confidence = "high" :=
  ⟨(polymarket_fixed_scoring "w" ⟨0, 0, 0⟩ none 0).2.2.2.2 rfl,
   (polymarket_fixed_scoring "w" ⟨0, 0, 0⟩ none 0).1⟩

/-! ### Snapshot ordering (C3) and run-to-run determinism (C4) -/

theorem enumFrom_map_rank (l : List Project) (k : ℕ) :
    ((List.enumFrom k l).map fun ip => ip.1 + 1) = List.range' (k + 1) l.length := by
  induction l generalizing k with
  | nil => rfl
  | cons p t ih => simp [List.enumFrom, List.range'_succ, ih]

/-- Evaluation of the scanner on the one-file tree used by the concrete
snapshots below. -/
theorem scan_single_file :
    latestMtimeRecursive [FSEntry.file "a" 3600000] 7000 = ⟨3600000, 1, false⟩ := by
  have hs : skipName "a" = false := by decide
  have hv : visitList [FSEntry.file "a" 3600000] = 1 := by
    rw [visitList_cons, visitEntry_file, visitList_nil, hs]
    simp
  have hm : mtimeList [FSEntry.file "a" 3600000] = 3600000 := by
    rw [mtimeList_cons, mtimeEntry_file, mtimeList_nil, hs]
    simp
  rw [latestMtimeRecursive_nocap _ _ (by rw [hv]; norm_num), hv, hm]

/-- C3 (amended): the assembler sorts a copy of the full project list —
`rankedProjects` is a permutation of the snapshot's `projects` array, sorted
descending by ROI score — and `priorityModules` is the top 3 of that sorted
copy with 1-based ranks `1, 2, …` in descending ROI order.  (The emitted
`projects` array itself keeps insertion order; see the counterexample.) -/
theorem ranked_sorted_and_priority_ranks (w : Workspace) (now : ℚ) :
    (rankedProjects w now).Perm (snapshotProjects w now)
  ∧ (rankedProjects w now).Sorted (fun a b => b.roiScore ≤ a.roiScore)
  ∧ priorityModules w now
      = ((rankedProjects w now).take 3).enum.map mkPriorityModule
  ∧ (priorityModules w now).map PriorityModule.rank
      = List.range' 1 (min 3 (snapshotProjects w now).length) := by
  refine ⟨List.perm_insertionSort _ _, ?_, rfl, ?_⟩
  · have h := List.sorted_insertionSort roiGe (snapshotProjects w now)
    exact h.imp fun hab => by rwa [roiGe, jsOr0_eq, jsOr0_eq] at hab
  · show ((topProjects w now).enum.map mkPriorityModule).map PriorityModule.rank = _
    rw [List.map_map]
    have h1 : (PriorityModule.rank ∘ mkPriorityModule)
        = fun ip : ℕ × Project => ip.1 + 1 := rfl
    rw [h1, List.enum, enumFrom_map_rank]
    congr 1
    rw [topProjects, List.length_take]
    congr 1
    exact (List.perm_insertionSort roiGe _).length_eq

theorem poly_roi_empty :
    (mkPolymarketProject "p" (countTodoItems "") none 7200000).roiScore = 64 := by
  have hc : countTodoItems "" = ⟨0, 0, 0⟩ := by decide
  rw [hc]
  simp [mkPolymarketProject]

theorem proj_roi_eval :
    (mkProject 7200000
      ⟨"papertrades", "d", [FSEntry.file "a" 3600000], false,
        fun _ => ⟨false, ""⟩, ["- [x] a"]⟩).roiScore = 70 := by
  have hg : getGit7DayActivity false (fun _ => ExecResult.mk false "") =
      ⟨0, [0, 0, 0, 0, 0, 0, 0], 0, "low"⟩ := rfl
  have hc : countTodoItems (String.intercalate "\n" ["- [x] a"]) = ⟨1, 1, 0⟩ := by decide
  simp only [mkProject, scan_single_file, hg, hc]
  norm_num [rawHours, classifyFreshness, completionFromTodos, progressOf, roiScoreOf, jsRound]

/-- C3 counterexample: a concrete workspace whose emitted snapshot has
`projects` ROI scores `[64, 70]` — the fixed Polymarket project (roiScore 64)
stays unshifted in front of a higher-scoring scanned project, so the
snapshot's full project list is not ordered descending by ROI score. -/
theorem snapshot_projects_not_sorted :
    ((snapshotProjects
        ⟨[⟨"papertrades", "d", [FSEntry.file "a" 3600000], false,
            fun _ => ⟨false, ""⟩, ["- [x] a"]⟩], "p", "", none⟩
        7200000).map Project.roiScore = [64, 70])
  ∧ ¬ List.Sorted (fun a b => b.roiScore ≤ a.roiScore)
      (snapshotProjects
        ⟨[⟨"papertrades", "d", [FSEntry.file "a" 3600000], false,
            fun _ => ⟨false, ""⟩, ["- [x] a"]⟩], "p", "", none⟩
        7200000) := by
  have hlist : snapshotProjects
      ⟨[⟨"papertrades", "d", [FSEntry.file "a" 3600000], false,
          fun _ => ⟨false, ""⟩, ["- [x] a"]⟩], "p", "", none⟩
      7200000
      = [mkPolymarketProject "p" (countTodoItems "") none 7200000,
         mkProject 7200000
           ⟨"papertrades", "d", [FSEntry.file "a" 3600000], false,
             fun _ => ⟨false, ""⟩, ["- [x] a"]⟩] := by
    simp [snapshotProjects]
  constructor
  · rw [hlist]
    simp only [List.map_cons, List.map_nil, poly_roi_empty, proj_roi_eval]
  · intro hs
    rw [hlist] at hs
    have hrel := List.rel_of_sorted_cons hs _ (List.mem_singleton.mpr rfl)
    rw [poly_roi_empty, proj_roi_eval] at hrel
    norm_num at hrel

/-- Two clock readings give the same view of a timestamp when they classify
it into the same freshness bucket and display the same rounded hours — the
only two channels through which the clock enters a scanned project record. -/
def sameFreshnessView (latest : ℕ) (now1 now2 : ℚ) : Prop :=
  classifyFreshness (rawHours latest now1) = classifyFreshness (rawHours latest now2)
    ∧ displayHours (rawHours latest now1) = displayHours (rawHours latest now2)

/-- C4 (amended): against an unchanged workspace, the `projects` array
depends on the clock only through each scanned project's freshness view and
the fixed project's displayed freshness hours; whenever those agree between
the two runs (in particular at equal clock readings) the `projects` arrays
are identical.  Across a bucket or rounding boundary time-derived fields may
differ as well — see the counterexample. -/
theorem projects_deterministic_given_freshness (w : Workspace) (now1 now2 : ℚ)
    (hscan : ∀ p ∈ w.scanned,
      sameFreshnessView (latestMtimeRecursive p.tree 7000).latest now1 now2)
    (hpoly : (w.polyStatusMtime.map fun m =>
          ((jsRound ((now1 - (m : ℚ)) / 3600000 * 10) : ℚ)) / 10)
        = (w.polyStatusMtime.map fun m =>
          ((jsRound ((now2 - (m : ℚ)) / 3600000 * 10) : ℚ)) / 10)) :
    snapshotProjects w now1 = snapshotProjects w now2 := by
  unfold snapshotProjects
  congr 1
  · unfold mkPolymarketProject
    rw [hpoly]
  · apply List.map_congr_left
    intro p hp
    obtain ⟨h1, h2⟩ := hscan p hp
    simp only [mkProject, h1, h2]

/-- C4 witness: with no scanned projects and no status-file timestamp the
freshness-view hypotheses hold for the distinct clock readings 0 and 5, and
the two runs produce identical `projects` arrays. -/
theorem projects_deterministic_given_freshness_witness :
    snapshotProjects ⟨[], "p", "", none⟩ 0 = snapshotProjects ⟨[], "p", "", none⟩ 5 :=
  projects_deterministic_given_freshness ⟨[], "p", "", none⟩ 0 5
    (by intro p hp; simp at hp) rfl

/-- C4 counterexample: one millisecond apart (clock readings 25199999 and
25200000, an unchanged workspace whose scanned project was last modified at
3600000), the elapsed time crosses the 6-hour hot/warm boundary: the two
runs' `projects` arrays report health `hot` versus `warm`, so consecutive
runs against an unchanged workspace are not byte-identical up to
`generatedAt`. -/
theorem projects_differ_across_time :
    ((snapshotProjects
        ⟨[⟨"papertrades", "d", [FSEntry.file "a" 3600000], false,
            fun _ => ⟨false, ""⟩, []⟩], "p", "", none⟩
        25199999).map Project.health = ["stable", "hot"])
  ∧ ((snapshotProjects
        ⟨[⟨"papertrades", "d", [FSEntry.file "a" 3600000], false,
            fun _ => ⟨false, ""⟩, []⟩], "p", "", none⟩
        25200000).map Project.health = ["stable", "warm"])
  ∧ snapshotProjects
        ⟨[⟨"papertrades", "d", [FSEntry.file "a" 3600000], false,
            fun _ => ⟨false, ""⟩, []⟩], "p", "", none⟩
        25199999
      ≠ snapshotProjects
        ⟨[⟨"papertrades", "d", [FSEntry.file "a" 3600000], false,
            fun _ => ⟨false, ""⟩, []⟩], "p", "", none⟩
        25200000 := by
  have hpoly : ∀ now : ℚ,
      (mkPolymarketProject "p" (countTodoItems "") none now).health = "stable" := by
    intro now
    have hc : countTodoItems "" = ⟨0, 0, 0⟩ := by decide
    rw [hc]
    simp [mkPolymarketProject]
  have hc0 : countTodoItems (String.intercalate "\n" ([] : List String)) = ⟨0, 0, 0⟩ := by
    decide
  have h1 : (snapshotProjects
      ⟨[⟨"papertrades", "d", [FSEntry.file "a" 3600000], false,
          fun _ => ⟨false, ""⟩, []⟩], "p", "", none⟩
      25199999).map Project.health = ["stable", "hot"] := by
    simp only [snapshotProjects, List.map_cons, List.map_nil, hpoly]
    simp only [mkProject, scan_single_file, hc0]
    norm_num [rawHours, classifyFreshness, healthString]
  have h2 : (snapshotProjects
      ⟨[⟨"papertrades", "d", [FSEntry.file "a" 3600000], false,
          fun _ => ⟨false, ""⟩, []⟩], "p", "", none⟩
      25200000).map Project.health = ["stable", "warm"] := by
    simp only [snapshotProjects, List.map_cons, List.map_nil, hpoly]
    simp only [mkProject, scan_single_file, hc0]
    norm_num [rawHours, classifyFreshness, healthString]
  refine ⟨h1, h2, fun he => ?_⟩
  have := congrArg (List.map Project.health) he
  rw [h1, h2] at this
  simp at this

/-- C5 (amended): for every readable tree and positive cap, the scanner
returns `capped = false` (with the exact visited count and the maximum
modification time seen) when the tree has strictly fewer visitable entries
than the cap, and stops immediately with `capped = true` and
`visitedCount = cap` as soon as the tree has at least `cap` visitable entries
— including a tree with exactly `cap` entries. -/
theorem scanner_cap_behavior (root : List FSEntry) (cap : ℕ) (h : 1 ≤ cap) :
    (visitList root < cap →
      latestMtimeRecursive root cap = ⟨mtimeList root, visitList root, false⟩)
  ∧ (cap ≤ visitList root →
      (latestMtimeRecursive root cap).capped = true
        ∧ (latestMtimeRecursive root cap).count = cap) :=
  ⟨fun h1 => latestMtimeRecursive_nocap root cap h1,
   fun h2 => latestMtimeRecursive_cap root cap h h2⟩

/-- C5 witness: scanning a flat directory of 6000 files with cap 5000 stops
capped with visitedCount 5000. -/
theorem scanner_cap_behavior_witness :
    (latestMtimeRecursive (List.replicate 6000 (FSEntry.file "f" 1)) 5000).capped = true
  ∧ (latestMtimeRecursive (List.replicate 6000 (FSEntry.file "f" 1)) 5000).count = 5000 :=
  (scanner_cap_behavior (List.replicate 6000 (FSEntry.file "f" 1)) 5000
      (by norm_num)).2
    (by rw [visitList_replicate_file]; norm_num)

/-- C5 counterexample: a flat directory of exactly 5000 files — a tree at
(not over) the cap 5000 — already returns `capped = true`, where the claim
asserts `capped = false` for trees at or under the cap. -/
theorem scanner_capped_at_exact_cap :
    visitList (List.replicate 5000 (FSEntry.file "f" 1)) = 5000
  ∧ (latestMtimeRecursive (List.replicate 5000 (FSEntry.file "f" 1)) 5000).capped = true
  ∧ (latestMtimeRecursive (List.replicate 5000 (FSEntry.file "f" 1)) 5000).count = 5000 := by
  have hv := visitList_replicate_file 5000
  exact ⟨hv, latestMtimeRecursive_cap _ 5000 (by norm_num) (by rw [hv])⟩
